import Mathlib

/-!
Shallow embedding of the TTS voice-cloning core
(src/app/audio_utils.py, src/app/tts_synthesizer_real.py, src/app/config.py).

Modelling conventions:
* Python floats are modelled as rationals (ℚ); `np.sqrt` is an explicit
  function argument `sqrtQ : ℚ → ℚ`, characterised by hypotheses where a
  claim depends on actual square-root behaviour.
* `librosa.resample` is an explicit function argument (an arbitrary
  resampler), since none of the claims depend on its numerics.
* Fallible I/O (file decode, engine calls) is modelled with `Except`/`Option`
  outcomes supplied as inputs; a Python `raise` is an `Except.error` result.
-/

namespace TTS

/-- Configuration values consumed by the core (src/app/config.py):
`MIN_AUDIO_DURATION` (default 30 s), `MAX_AUDIO_DURATION` (default 300 s),
`AUDIO_SAMPLE_RATE` (default 16000 Hz). All are environment-overridable,
so they are fields, with a record of the defaults below. -/
structure Config where
  MIN_AUDIO_DURATION : ℚ
  MAX_AUDIO_DURATION : ℚ
  AUDIO_SAMPLE_RATE : ℕ

/-- The default configuration from src/app/config.py. -/
def defaultConfig : Config :=
  { MIN_AUDIO_DURATION := 30, MAX_AUDIO_DURATION := 300, AUDIO_SAMPLE_RATE := 16000 }

/-- `config.SUPPORTED_INPUT_FORMATS` from src/app/config.py. -/
def SUPPORTED_INPUT_FORMATS : List String := [".wav", ".mp3", ".flac"]

/-- Python `str.lower()` on a suffix, character by character. -/
def strToLower (s : String) : String := String.mk (s.toList.map Char.toLower)

/-- Metadata obtained from `sf.SoundFile`: frame count (`len(audio)`) and
`audio.samplerate`. -/
structure DecodedMeta where
  frames : ℕ
  samplerate : ℕ
deriving DecidableEq, Repr

/-- An audio file as the validation code observes it: whether the path
exists, its suffix (as returned by `file_path.suffix`), and the outcome of
opening it with the codec library (`Except.error` models a raised decode
exception). -/
structure AudioFile where
  fileExists : Bool
  suffix : String
  decode : Except String DecodedMeta

/-- Embedding of `validate_audio_format` (src/app/audio_utils.py, lines
27-66).  `libsAvailable` is the module-level `AUDIO_LIBS_AVAILABLE` flag.
Returns `false` for a missing file or an extension outside
`SUPPORTED_INPUT_FORMATS`; in degraded mode (no codec libs) returns `true`
after the extension check; otherwise decodes, computes
`duration = frames / samplerate` and rejects durations outside
`[MIN_AUDIO_DURATION, MAX_AUDIO_DURATION]`; a decode exception is caught
and yields `false`. -/
def validate_audio_format (cfg : Config) (libsAvailable : Bool) (f : AudioFile) : Bool :=
  if !f.fileExists then false
  else if !(SUPPORTED_INPUT_FORMATS.contains (strToLower f.suffix)) then false
  else if !libsAvailable then true
  else
    match f.decode with
    | Except.error _ => false
    | Except.ok m =>
      let duration : ℚ := (m.frames : ℚ) / (m.samplerate : ℚ)
      if duration < cfg.MIN_AUDIO_DURATION then false
      else if duration > cfg.MAX_AUDIO_DURATION then false
      else true

/-- An in-memory signal as `librosa.load(..., mono=False)` produces it:
a 1-D array (`mono`) or a 2-D channels-first array (`multi`). -/
inductive Sig where
  | mono (samples : List ℚ)
  | multi (chs : List (List ℚ))
deriving DecidableEq, Repr

/-- All samples of a signal in one list (`np.mean` over a 2-D array
averages over all entries). -/
def flatten : Sig → List ℚ
  | Sig.mono s => s
  | Sig.multi chs => chs.flatten

/-- Channel count of a signal (1 for a 1-D array). -/
def numChannels : Sig → ℕ
  | Sig.mono _ => 1
  | Sig.multi chs => chs.length

/-- Apply a sample transform to every sample (NumPy broadcasting). -/
def mapSig (f : ℚ → ℚ) : Sig → Sig
  | Sig.mono s => Sig.mono (s.map f)
  | Sig.multi chs => Sig.multi (chs.map (fun ch => ch.map f))

/-- Sample at index `i` of channel `ch`, 0 outside range (arrays are
rectangular in NumPy; the default is never hit on well-formed input). -/
def sampleAt (ch : List ℚ) (i : ℕ) : ℚ := ch.getD i 0

/-- `librosa.to_mono`: `np.mean(y, axis=0)` — pointwise mean across
channels. -/
def to_mono (chs : List (List ℚ)) : List ℚ :=
  match chs with
  | [] => []
  | c0 :: _ =>
    (List.range c0.length).map (fun i => (chs.map (fun ch => sampleAt ch i)).sum / (chs.length : ℚ))

/-- The channel-conversion step of `normalize_audio` (lines 158-163):
down-mix to mono when `target_channels == 1` and the signal is 2-D;
replicate a mono channel when `target_channels > 1` (`np.stack([y] * n)`);
otherwise leave the signal alone. -/
def channelConvert (target_channels : ℕ) (y : Sig) : Sig :=
  match y with
  | Sig.multi chs => if target_channels = 1 then Sig.mono (to_mono chs) else Sig.multi chs
  | Sig.mono s => if target_channels > 1 then Sig.multi (List.replicate target_channels s)
                  else Sig.mono s

/-- Apply a resampler channel-wise (`librosa.resample` keeps the array
dimensionality). -/
def resampleSig (resample : List ℚ → ℕ → ℕ → List ℚ) (y : Sig) (orig_sr target_sr : ℕ) : Sig :=
  match y with
  | Sig.mono s => Sig.mono (resample s orig_sr target_sr)
  | Sig.multi chs => Sig.multi (chs.map (fun ch => resample ch orig_sr target_sr))

/-- `np.mean(y**2)`: mean of the squared samples (0 on an empty signal,
matching the guard `current_rms > 0` never firing there). -/
def meanSq (l : List ℚ) : ℚ := (l.map (fun x => x * x)).sum / (l.length : ℚ)

/-- The volume-normalization step of `normalize_audio` (lines 170-179):
`current_rms = np.sqrt(np.mean(y**2))`; if it is positive, scale every
sample by `min(0.7 / current_rms, 3.0)`; otherwise leave the signal
unchanged. `sqrtQ` stands for `np.sqrt`. -/
def volumeNormalize (sqrtQ : ℚ → ℚ) (y : Sig) : Sig :=
  let current_rms := sqrtQ (meanSq (flatten y))
  if 0 < current_rms then
    let scaling_factor := min ((7/10 : ℚ) / current_rms) 3
    mapSig (fun x => x * scaling_factor) y
  else y

/-- `np.clip(x, -1.0, 1.0)` on one sample. -/
def clipSample (x : ℚ) : ℚ := min (max x (-1)) 1

/-- `np.clip(y, -1.0, 1.0)` on the whole signal (line 182). -/
def clipSig (y : Sig) : Sig := mapSig clipSample y

/-- The data produced by a successful `normalize_audio` run: the signal
and rate handed to `sf.write`. -/
structure NormResult where
  sig : Sig
  sr : ℕ
deriving Repr

/-- Embedding of `normalize_audio` (src/app/audio_utils.py, lines
125-195).  `libsAvailable` is `AUDIO_LIBS_AVAILABLE`; when it is `false`
the function returns `False` (here `none`) before touching the input.
`input` is the outcome of `librosa.load(input_path, sr=None, mono=False)`
(`Except.error` = raised decode exception, caught by the `except` block,
which returns `False`).  `target_sr = none` models the `None` default,
replaced by `config.AUDIO_SAMPLE_RATE`.  On success Python returns `True`
after writing the processed signal; here `some` carries that signal. -/
def normalize_audio (libsAvailable : Bool) (sqrtQ : ℚ → ℚ)
    (resample : List ℚ → ℕ → ℕ → List ℚ) (cfg : Config)
    (input : Except String (Sig × ℕ))
    (target_sr : Option ℕ) (target_channels : ℕ) (normalize_volume : Bool) :
    Option NormResult :=
  if !libsAvailable then none
  else
    let tsr := target_sr.getD cfg.AUDIO_SAMPLE_RATE
    match input with
    | Except.error _ => none
    | Except.ok (y0, sr0) =>
      let y1 := channelConvert target_channels y0
      let y2 := if sr0 ≠ tsr then resampleSig resample y1 sr0 tsr else y1
      let sr2 := if sr0 ≠ tsr then tsr else sr0
      let y3 := if normalize_volume then volumeNormalize sqrtQ y2 else y2
      some { sig := clipSig y3, sr := sr2 }

/-! ## Synthesizer (src/app/tts_synthesizer_real.py) -/

/-- Python regex `\w` word characters, modelled over the character ranges
the repository's strings use: ASCII alphanumerics and underscore, the
Latin-1 and Latin Extended-A letters (excluding the two arithmetic signs
at 0xD7 and 0xF7), and the Latin-1 letter-like codepoints 0xAA, 0xB5,
0xBA. -/
def isPyWordChar (c : Char) : Bool :=
  c.isAlphanum || c == '_' ||
  (0xC0 ≤ c.toNat && c.toNat ≤ 0x17F && c.toNat ≠ 0xD7 && c.toNat ≠ 0xF7) ||
  c.toNat == 0xAA || c.toNat == 0xB5 || c.toNat == 0xBA

/-- Python regex `\s` / `str.isspace` whitespace, modelled over the same
range: ASCII whitespace (space, tab, newline, carriage return, vertical
tab 0x0B, form feed 0x0C) plus the Latin-1 spaces 0x85 and 0xA0. -/
def isPySpace (c : Char) : Bool :=
  c == ' ' || c == '\t' || c == '\n' || c == '\r' ||
  c.toNat == 0x0B || c.toNat == 0x0C || c.toNat == 0x85 || c.toNat == 0xA0

/-- The character class kept by `re.sub(r'[^\w\s\.,!?;:-]', '', text)`
(line 217): word characters, whitespace, and `. , ! ? ; : -`. -/
def isAllowedChar (c : Char) : Bool :=
  isPyWordChar c || isPySpace c ||
  c == '.' || c == ',' || c == '!' || c == '?' || c == ';' || c == ':' || c == '-'

/-- Python `str.strip()`: drop whitespace from both ends. -/
def pyStrip (l : List Char) : List Char :=
  ((l.dropWhile isPySpace).reverse.dropWhile isPySpace).reverse

/-- `str.strip()` on a `String`. -/
def pyStripStr (s : String) : String := String.mk (pyStrip s.toList)

/-- `re.sub(r'\s+', ' ', ·)`: replace each maximal whitespace run by a
single space. The flag records whether the previous character was
whitespace (i.e. whether we are inside a run already replaced). -/
def collapseAux : Bool → List Char → List Char
  | _, [] => []
  | prevSpace, c :: cs =>
    if isPySpace c then
      if prevSpace then collapseAux true cs else ' ' :: collapseAux true cs
    else c :: collapseAux false cs

/-- `preprocess_text` on a character list (lines 213-219): strip the
disallowed characters, then `str.strip()`, then collapse whitespace
runs. -/
def preprocessChars (l : List Char) : List Char :=
  collapseAux false (pyStrip (l.filter isAllowedChar))

/-- Embedding of `RealTTSSynthesizer.preprocess_text` (lines 213-219).
The `language` parameter is accepted (Python default `"pt"`) and, as in
the source, never used. -/
def preprocess_text (text : String) (language : String) : String :=
  String.mk (preprocessChars text.toList)

/-- One entry of `available_voices`: the fields the code reads (`id`,
`name`, `engine`, `lang`), plus the optional `system_voice` handle id
(present exactly when the dict has a `"system_voice"` key). -/
structure VoiceInfo where
  id : String
  name : String
  engine : String
  lang : String
  systemVoiceHandle : Option String
deriving DecidableEq, Repr

/-- The three built-in registry entries of `_initialize_engines`
(lines 47-51), in insertion order. -/
def baseVoices : List (String × VoiceInfo) :=
  [("default", { id := "default", name := "Voz Padrão", engine := "pyttsx3",
                 lang := "pt-BR", systemVoiceHandle := none }),
   ("gtts_pt", { id := "gtts_pt", name := "Google TTS Português", engine := "gtts",
                 lang := "pt", systemVoiceHandle := none }),
   ("gtts_en", { id := "gtts_en", name := "Google TTS English", engine := "gtts",
                 lang := "en", systemVoiceHandle := none })]

/-- A system voice as enumerated by `pyttsx3` (`voice.id`, and `voice.name`
when the attribute exists). -/
structure SysVoice where
  handleId : String
  name : Option String
deriving Repr

/-- The registry entry built for system voice number `i` (lines 54-62). -/
def systemVoiceEntry (i : ℕ) (v : SysVoice) : String × VoiceInfo :=
  ("system_" ++ toString i,
   { id := "system_" ++ toString i,
     name := v.name.getD ("Voz Sistema " ++ toString i),
     engine := "pyttsx3", lang := "pt-BR", systemVoiceHandle := some v.handleId })

/-- The `available_voices` registry produced by `_initialize_engines`
(lines 34-70).  `outcome` is the run of the `try` block: `ok voices` when
engine setup and voice enumeration complete (yielding the three built-ins
followed by the system voices), `error` when any step raises (the `except`
block then installs the single `gtts_pt` entry). -/
def init_engines (outcome : Except String (List SysVoice)) : List (String × VoiceInfo) :=
  match outcome with
  | Except.ok voices => baseVoices ++ voices.enum.map (fun p => systemVoiceEntry p.1 p.2)
  | Except.error _ =>
    [("gtts_pt", { id := "gtts_pt", name := "Google TTS Português", engine := "gtts",
                   lang := "pt", systemVoiceHandle := none })]

/-- The synthesizer state the embedded operations touch: the
`available_voices` registry, the `current_voice` identifier, and the live
`voice` property of the pyttsx3 engine (set best-effort by `set_voice`). -/
structure SynthState where
  available_voices : List (String × VoiceInfo)
  current_voice : String
  engineVoice : Option String
deriving Repr

/-- Embedding of `RealTTSSynthesizer.set_voice` (lines 76-90).  When the
id is registered, `current_voice` is set and, for a pyttsx3 voice with a
bound system handle, the engine `voice` property is set inside a
`try/except: pass` — `applyFails` says whether that `setProperty` call
raises; a raise is swallowed. Unknown ids return `False` and leave the
state alone. -/
def set_voice (applyFails : Bool) (st : SynthState) (voice_id : String) :
    Bool × SynthState :=
  match st.available_voices.lookup voice_id with
  | none => (false, st)
  | some voice_info =>
    let st1 := { st with current_voice := voice_id }
    let st2 :=
      if voice_info.engine == "pyttsx3" && voice_info.systemVoiceHandle.isSome then
        if applyFails then st1
        else { st1 with engineVoice := voice_info.systemVoiceHandle }
      else st1
    (true, st2)

/-- The backend-resolution step of `synthesize_text` (lines 114-117):
`voice_to_use = voice_id or self.current_voice` (Python `or`: `None` and
the empty string fall through to the current voice), replaced by the
hardcoded `"gtts_pt"` when not registered. -/
def resolveVoice (registry : List (String × VoiceInfo)) (current : String)
    (voice_id : Option String) : String :=
  let voice_to_use :=
    match voice_id with
    | none => current
    | some s => if s = "" then current else s
  if (registry.lookup voice_to_use).isSome then voice_to_use else "gtts_pt"

/-- Embedding of `RealTTSSynthesizer._synthesize_gtts` (lines 141-167):
one network-engine attempt at the given language tag (`network lang` is
the outcome of the gTTS call, buffer decode, resample and write); on
success the output path is returned, and an exception is re-raised with
no fallback. -/
def synthesize_gtts (network : String → Except String Unit) (lang : String)
    (output_path : String) : Except String String :=
  match network lang with
  | Except.ok _ => Except.ok output_path
  | Except.error e => Except.error e

/-- Embedding of `RealTTSSynthesizer._synthesize_pyttsx3` (lines 169-211):
`offline` is the outcome of the whole pyttsx3 body (property set, save to
temp file, decode, resample, write). On success the output path is
returned; on any exception the call falls back to exactly one
network-engine attempt with language `"pt"` (lines 206-211). -/
def synthesize_pyttsx3 (offline : Except String Unit)
    (network : String → Except String Unit) (output_path : String) :
    Except String String :=
  match offline with
  | Except.ok _ => Except.ok output_path
  | Except.error _ => synthesize_gtts network "pt" output_path

/-- Embedding of `RealTTSSynthesizer.synthesize_text` (lines 92-139):
reject text that strips to empty, resolve the backend with `resolveVoice`,
look the resolved id up (an absent id would raise `KeyError`, modelled as
an error — unreachable for registries produced by `init_engines`), and
dispatch on the `engine` field. -/
def synthesize_text (offline : Except String Unit)
    (network : String → Except String Unit)
    (registry : List (String × VoiceInfo)) (current : String)
    (text : String) (voice_id : Option String) (output_path : String) :
    Except String String :=
  if pyStripStr text = "" then Except.error "Texto não pode estar vazio"
  else
    let voice_to_use := resolveVoice registry current voice_id
    match registry.lookup voice_to_use with
    | none => Except.error "KeyError"
    | some voice_info =>
      if voice_info.engine == "gtts" then
        synthesize_gtts network voice_info.lang output_path
      else
        synthesize_pyttsx3 offline network output_path

/-- A concrete stand-in for `np.sqrt` used when instantiating theorems:
correct at the two inputs the instantiations use (`1/10000 ↦ 1/100`,
everything else `↦ 0`, in particular `0 ↦ 0`). -/
def sqrtW : ℚ → ℚ := fun q => if q = 1/10000 then 1/100 else 0

/-- Whether the last character of a list is not whitespace (trivially true
for the empty list). -/
def noTrailSpace (l : List Char) : Bool :=
  match l.getLast? with
  | none => true
  | some c => !isPySpace c

/-- The whitespace discipline `re.sub(r'\s+', ' ', ·)` establishes:
every whitespace character in the list is a plain space immediately
followed by a non-whitespace character (hence there are no whitespace
runs and no trailing whitespace). -/
def canonAux : List Char → Bool
  | [] => true
  | [c] => !isPySpace c
  | c :: d :: rest =>
    (if isPySpace c then c == ' ' && !isPySpace d else true) && canonAux (d :: rest)

/-- Canonical form of a preprocessed text: no leading whitespace, and the
`canonAux` whitespace discipline throughout. -/
def canonicalB (l : List Char) : Bool :=
  match l with
  | [] => true
  | c :: _ => !isPySpace c && canonAux l

/-! ## Theorems -/

/-- C5: `validate_audio_format` is total (returns a boolean, never
raises); it returns `false` for a missing file or an extension outside
`{.wav, .mp3, .flac}`; when the codec libraries are present it returns
`true` exactly when the file decodes and its duration
`frames / samplerate` lies within `[MIN_AUDIO_DURATION,
MAX_AUDIO_DURATION]` (so a decode exception yields `false`); under the
default bounds a 5 s file and a 400 s file are rejected and a 60 s file
is accepted. -/
theorem C5_validate_fails_closed :
    (∀ (cfg : Config) (lib : Bool) (f : AudioFile),
       validate_audio_format cfg lib f = true ↔
         (f.fileExists = true ∧
          SUPPORTED_INPUT_FORMATS.contains (strToLower f.suffix) = true ∧
          (lib = true → ∃ m, f.decode = Except.ok m ∧
            cfg.MIN_AUDIO_DURATION ≤ (m.frames : ℚ) / (m.samplerate : ℚ) ∧
            (m.frames : ℚ) / (m.samplerate : ℚ) ≤ cfg.MAX_AUDIO_DURATION))) ∧
    validate_audio_format defaultConfig true
      { fileExists := false, suffix := ".wav", decode := Except.ok ⟨960000, 16000⟩ } = false ∧
    validate_audio_format defaultConfig true
      { fileExists := true, suffix := ".ogg", decode := Except.ok ⟨960000, 16000⟩ } = false ∧
    validate_audio_format defaultConfig true
      { fileExists := true, suffix := ".wav", decode := Except.error "decode failure" } = false ∧
    validate_audio_format defaultConfig true
      { fileExists := true, suffix := ".wav", decode := Except.ok ⟨80000, 16000⟩ } = false ∧
    validate_audio_format defaultConfig true
      { fileExists := true, suffix := ".wav", decode := Except.ok ⟨6400000, 16000⟩ } = false ∧
    validate_audio_format defaultConfig true
      { fileExists := true, suffix := ".wav", decode := Except.ok ⟨960000, 16000⟩ } = true := by
  refine ⟨?_,
    by norm_num [validate_audio_format, defaultConfig, strToLower, SUPPORTED_INPUT_FORMATS],
    by norm_num [validate_audio_format, defaultConfig, strToLower, SUPPORTED_INPUT_FORMATS] <;>
       decide,
    by norm_num [validate_audio_format, defaultConfig, strToLower, SUPPORTED_INPUT_FORMATS],
    by norm_num [validate_audio_format, defaultConfig, strToLower, SUPPORTED_INPUT_FORMATS],
    by norm_num [validate_audio_format, defaultConfig, strToLower, SUPPORTED_INPUT_FORMATS],
    by norm_num [validate_audio_format, defaultConfig, strToLower, SUPPORTED_INPUT_FORMATS] <;>
       decide⟩
  intro cfg lib f
  obtain ⟨fe, suf, dec⟩ := f
  unfold validate_audio_format
  cases fe with
  | false => simp
  | true =>
    cases hc : SUPPORTED_INPUT_FORMATS.contains (strToLower suf) with
    | false => simp [hc]
    | true =>
      cases lib with
      | false => simp [hc]
      | true =>
        cases dec with
        | error e => simp [hc]
        | ok m =>
          simp only [hc, Bool.not_true, Bool.false_eq_true, if_false, eq_self_iff_true,
            true_and, true_implies, Except.ok.injEq, exists_eq_left, exists_eq_left']
          constructor
          · intro h
            by_cases h1 : ((m.frames : ℚ) / (m.samplerate : ℚ)) < cfg.MIN_AUDIO_DURATION
            · rw [if_pos h1] at h; simp at h
            · by_cases h2 : cfg.MAX_AUDIO_DURATION < ((m.frames : ℚ) / (m.samplerate : ℚ))
              · rw [if_neg h1, if_pos h2] at h; simp at h
              · exact ⟨le_of_not_lt h1, le_of_not_lt h2⟩
          · rintro ⟨h1, h2⟩
            rw [if_neg (not_lt.mpr h1), if_neg (not_lt.mpr h2)]

/-- C8: whatever the outcome of engine setup (success with any list of
system voices, or an exception anywhere in the `try` block), the registry
built by `_initialize_engines` contains the network-engine default
`"gtts_pt"` for the primary language, so it is never empty. -/
theorem C8_registry_never_empty :
    ∀ outcome : Except String (List SysVoice),
      ∃ voice_info : VoiceInfo,
        (init_engines outcome).lookup "gtts_pt" = some voice_info ∧
        voice_info.engine = "gtts" ∧ voice_info.lang = "pt" ∧
        init_engines outcome ≠ [] := by
  intro outcome
  cases outcome with
  | ok voices =>
    refine ⟨_, rfl, rfl, rfl, ?_⟩
    simp [init_engines, baseVoices]
  | error e => exact ⟨_, rfl, rfl, rfl, by simp [init_engines]⟩

/-- C9: `preprocess_text` depends only on its text argument — the
`language` parameter is ignored. -/
theorem C9_language_ignored :
    ∀ (text l1 l2 : String), preprocess_text text l1 = preprocess_text text l2 :=
  fun _ _ _ => rfl

/-- C10: with the codec libraries unavailable, `normalize_audio` returns
`False` (`none`) for every input, target and flag combination, before the
input is even examined — whereas `validate_audio_format` in the same
degraded mode still accepts an existing file with a supported extension
on the strength of the extension alone. -/
theorem C10_normalize_degraded_mode :
    (∀ (sqrtQ : ℚ → ℚ) (resample : List ℚ → ℕ → ℕ → List ℚ) (cfg : Config)
       (input : Except String (Sig × ℕ)) (tsr : Option ℕ) (tc : ℕ) (nv : Bool),
       normalize_audio false sqrtQ resample cfg input tsr tc nv = none) ∧
    validate_audio_format defaultConfig false
      { fileExists := true, suffix := ".wav", decode := Except.error "undecodable" } = true := by
  refine ⟨fun _ _ _ _ _ _ _ => rfl, ?_⟩
  norm_num [validate_audio_format, defaultConfig, strToLower, SUPPORTED_INPUT_FORMATS] <;> decide

/-- C7: `set_voice` on an unregistered id returns `false` and leaves the
whole state (registry, current voice, engine voice property) unchanged;
on a registered id it returns `true` and sets the current voice to that
id without touching the registry; and a raised exception while applying a
bound system voice handle is swallowed, changing neither the returned
boolean nor the current voice. -/
theorem C7_set_voice :
    (∀ (b : Bool) (st : SynthState) (id : String),
       st.available_voices.lookup id = none → set_voice b st id = (false, st)) ∧
    (∀ (b : Bool) (st : SynthState) (id : String) (voice_info : VoiceInfo),
       st.available_voices.lookup id = some voice_info →
         (set_voice b st id).1 = true ∧
         (set_voice b st id).2.current_voice = id ∧
         (set_voice b st id).2.available_voices = st.available_voices) ∧
    (∀ (st : SynthState) (id : String),
       (set_voice true st id).1 = (set_voice false st id).1 ∧
       (set_voice true st id).2.current_voice = (set_voice false st id).2.current_voice) := by
  refine ⟨?_, ?_, ?_⟩
  · intro b st id h
    simp [set_voice, h]
  · intro b st id voice_info h
    simp only [set_voice, h]
    split <;> (try split) <;> simp
  · intro st id
    cases h : st.available_voices.lookup id with
    | none => simp [set_voice, h]
    | some voice_info =>
      simp only [set_voice, h]
      split <;> simp

/-- Witness for C7 at a concrete state built from the standard registry:
an unknown id is rejected with the state untouched, a registered id is
selected. -/
theorem C7_set_voice_witness :
    set_voice false
        { available_voices := init_engines (Except.ok []), current_voice := "default",
          engineVoice := none } "nonexistent-id" =
      (false, { available_voices := init_engines (Except.ok []), current_voice := "default",
                engineVoice := none }) ∧
    (set_voice false
        { available_voices := init_engines (Except.ok []), current_voice := "default",
          engineVoice := none } "gtts_en").1 = true ∧
    (set_voice false
        { available_voices := init_engines (Except.ok []), current_voice := "default",
          engineVoice := none } "gtts_en").2.current_voice = "gtts_en" := by
  refine ⟨C7_set_voice.1 false _ "nonexistent-id" (by decide), ?_⟩
  have h := C7_set_voice.2.1 false
      { available_voices := init_engines (Except.ok []), current_voice := "default",
        engineVoice := none } "gtts_en"
      { id := "gtts_en", name := "Google TTS English", engine := "gtts",
        lang := "en", systemVoiceHandle := none } (by decide)
  exact ⟨h.1, h.2.1⟩

/-- C1 counterexample: with the standard registry, an explicit `voice_id`
that is absent from the registry is routed to the hardcoded `"gtts_pt"`
fallback even though the current voice `"default"` is present in the
registry — not to the current voice, as the claim states. -/
theorem C1_counterexample :
    resolveVoice (init_engines (Except.ok [])) "default" (some "nonexistent") = "gtts_pt" ∧
    ((init_engines (Except.ok [])).lookup "default").isSome = true ∧
    (init_engines (Except.ok [])).lookup "nonexistent" = none ∧
    "gtts_pt" ≠ "default" := by
  refine ⟨rfl, rfl, rfl, ?_⟩
  decide

/-- C1 (amended): `synthesize_text` first chooses the candidate
identifier — the explicit `voice_id` whenever it is supplied and
non-empty (Python `or` falsiness), otherwise the current voice — and only
then checks the registry: if the candidate is absent, the hardcoded
`"gtts_pt"` fallback is used. In particular a supplied but unregistered
`voice_id` routes to `"gtts_pt"`, never to the current voice. -/
theorem C1_resolution_amended :
    (∀ (reg : List (String × VoiceInfo)) (cur s : String),
       s ≠ "" → (reg.lookup s).isSome = true → resolveVoice reg cur (some s) = s) ∧
    (∀ (reg : List (String × VoiceInfo)) (cur s : String),
       s ≠ "" → reg.lookup s = none → resolveVoice reg cur (some s) = "gtts_pt") ∧
    (∀ (reg : List (String × VoiceInfo)) (cur : String),
       resolveVoice reg cur none =
         if (reg.lookup cur).isSome then cur else "gtts_pt") ∧
    (∀ (reg : List (String × VoiceInfo)) (cur : String),
       resolveVoice reg cur (some "") =
         if (reg.lookup cur).isSome then cur else "gtts_pt") := by
  refine ⟨?_, ?_, ?_, ?_⟩
  · intro reg cur s hs hl
    simp [resolveVoice, hs, hl]
  · intro reg cur s hs hl
    simp [resolveVoice, hs, hl]
  · intro reg cur
    simp [resolveVoice]
  · intro reg cur
    simp [resolveVoice]

/-- Witness for the amended C1 at concrete inputs: a registered explicit
id is used as-is, an unregistered one falls back to `"gtts_pt"`. -/
theorem C1_resolution_amended_witness :
    resolveVoice (init_engines (Except.ok [])) "default" (some "gtts_en") = "gtts_en" ∧
    resolveVoice (init_engines (Except.ok [])) "default" (some "nope") = "gtts_pt" := by
  refine ⟨?_, ?_⟩
  · exact C1_resolution_amended.1 (init_engines (Except.ok [])) "default" "gtts_en"
      (by decide) (by decide)
  · exact C1_resolution_amended.2.1 (init_engines (Except.ok [])) "default" "nope"
      (by decide) (by decide)

/-- C2: a request whose resolved backend is an offline engine
(`engine ≠ "gtts"`) is, when the offline body raises, retried exactly
once through the network-engine path with language `"pt"` — so an
always-failing offline backend with a working network backend yields a
successful result; a request resolved to a network backend is exactly one
network attempt at the backend's language, and a network failure
propagates with no further fallback. -/
theorem C2_fallback_policy :
    (∀ (network : String → Except String Unit)
       (reg : List (String × VoiceInfo)) (cur text : String)
       (vid : Option String) (out : String) (voice_info : VoiceInfo) (e : String),
       pyStripStr text ≠ "" →
       reg.lookup (resolveVoice reg cur vid) = some voice_info →
       voice_info.engine ≠ "gtts" →
       synthesize_text (Except.error e) network reg cur text vid out =
         synthesize_gtts network "pt" out) ∧
    (∀ (network : String → Except String Unit)
       (reg : List (String × VoiceInfo)) (cur text : String)
       (vid : Option String) (out : String) (voice_info : VoiceInfo) (e : String),
       pyStripStr text ≠ "" →
       reg.lookup (resolveVoice reg cur vid) = some voice_info →
       voice_info.engine ≠ "gtts" → network "pt" = Except.ok () →
       synthesize_text (Except.error e) network reg cur text vid out = Except.ok out) ∧
    (∀ (offline : Except String Unit) (network : String → Except String Unit)
       (reg : List (String × VoiceInfo)) (cur text : String)
       (vid : Option String) (out : String) (voice_info : VoiceInfo),
       pyStripStr text ≠ "" →
       reg.lookup (resolveVoice reg cur vid) = some voice_info →
       voice_info.engine = "gtts" →
       synthesize_text offline network reg cur text vid out =
         synthesize_gtts network voice_info.lang out) ∧
    (∀ (offline : Except String Unit) (network : String → Except String Unit)
       (reg : List (String × VoiceInfo)) (cur text : String)
       (vid : Option String) (out : String) (voice_info : VoiceInfo) (e : String),
       pyStripStr text ≠ "" →
       reg.lookup (resolveVoice reg cur vid) = some voice_info →
       voice_info.engine = "gtts" → network voice_info.lang = Except.error e →
       synthesize_text offline network reg cur text vid out = Except.error e) := by
  refine ⟨?_, ?_, ?_, ?_⟩
  · intro network reg cur text vid out voice_info e ht hl he
    simp [synthesize_text, ht, hl, he, synthesize_pyttsx3]
  · intro network reg cur text vid out voice_info e ht hl he hn
    simp [synthesize_text, ht, hl, he, synthesize_pyttsx3, synthesize_gtts, hn]
  · intro offline network reg cur text vid out voice_info ht hl he
    simp [synthesize_text, ht, hl, he]
  · intro offline network reg cur text vid out voice_info e ht hl he hn
    simp [synthesize_text, ht, hl, he, synthesize_gtts, hn]

/-- Witness for C2 with the standard registry: an offline-routed request
(current voice `"default"`) with a rigged always-failing offline engine
and a working network engine succeeds, while a network-routed request
(`voice_id = "gtts_pt"`) with a rigged failing network engine raises with
no further fallback. -/
theorem C2_fallback_policy_witness :
    synthesize_text (Except.error "engine down") (fun _ => Except.ok ())
        (init_engines (Except.ok [])) "default" "hello" none "out.wav" =
      Except.ok "out.wav" ∧
    synthesize_text (Except.ok ()) (fun _ => Except.error "network down")
        (init_engines (Except.ok [])) "default" "hello" (some "gtts_pt") "out.wav" =
      Except.error "network down" := by
  constructor
  · exact C2_fallback_policy.2.1 (fun _ => Except.ok ()) (init_engines (Except.ok []))
      "default" "hello" none "out.wav"
      { id := "default", name := "Voz Padrão", engine := "pyttsx3",
        lang := "pt-BR", systemVoiceHandle := none }
      "engine down" (by decide) (by decide) (by decide) rfl
  · exact C2_fallback_policy.2.2.2 (Except.ok ()) (fun _ => Except.error "network down")
      (init_engines (Except.ok [])) "default" "hello" (some "gtts_pt") "out.wav"
      { id := "gtts_pt", name := "Google TTS Português", engine := "gtts",
        lang := "pt", systemVoiceHandle := none }
      "network down" (by decide) (by decide) (by decide) rfl

/-- `meanSq` of an all-zero list is 0 (no positive RMS can arise from
silence). -/
theorem meanSq_replicate_zero (n : ℕ) : meanSq (List.replicate n 0) = 0 := by
  simp [meanSq]

/-- C3: inside `normalize_audio`'s volume-normalization step: whenever
the computed RMS is strictly positive, every sample is multiplied by
`min(0.7 / RMS, 3.0)`; when the RMS equals `0.01` the applied factor is
exactly `3` (the clamp boundary) even though the unclamped ratio is `70`;
and on all-zero (silent) input — where the mean square is 0, so no
positive RMS arises — the samples are left unchanged. -/
theorem C3_volume_clamp :
    (∀ (sqrtQ : ℚ → ℚ) (y : Sig), 0 < sqrtQ (meanSq (flatten y)) →
       volumeNormalize sqrtQ y =
         mapSig (fun x => x * min ((7/10 : ℚ) / sqrtQ (meanSq (flatten y))) 3) y) ∧
    (∀ (sqrtQ : ℚ → ℚ) (y : Sig), sqrtQ (meanSq (flatten y)) = 1/100 →
       volumeNormalize sqrtQ y = mapSig (fun x => x * 3) y) ∧
    ((7/10 : ℚ) / (1/100) = 70 ∧ min ((7/10 : ℚ) / (1/100)) 3 = 3) ∧
    (∀ (sqrtQ : ℚ → ℚ) (n : ℕ), sqrtQ 0 = 0 →
       volumeNormalize sqrtQ (Sig.mono (List.replicate n 0)) =
         Sig.mono (List.replicate n 0)) := by
  refine ⟨?_, ?_, by constructor <;> norm_num, ?_⟩
  · intro sqrtQ y h
    simp only [volumeNormalize]
    rw [if_pos h]
  · intro sqrtQ y h
    have h3 : min ((7/10 : ℚ) / sqrtQ (meanSq (flatten y))) 3 = 3 := by
      rw [h]; norm_num
    have hpos : 0 < sqrtQ (meanSq (flatten y)) := by rw [h]; norm_num
    simp only [volumeNormalize]
    rw [if_pos hpos, h3]
  · intro sqrtQ n h0
    simp only [volumeNormalize, flatten, meanSq_replicate_zero, h0]
    rw [if_neg (lt_irrefl 0)]

/-- Witness for C3: a one-sample signal whose mean square is `1/10000`
(RMS `0.01` under `sqrtW`) is scaled by exactly 3, and a two-sample
silent signal is left unchanged. -/
theorem C3_volume_clamp_witness :
    volumeNormalize sqrtW (Sig.mono [1/100]) = mapSig (fun x => x * 3) (Sig.mono [1/100]) ∧
    volumeNormalize sqrtW (Sig.mono (List.replicate 2 0)) =
      Sig.mono (List.replicate 2 0) := by
  constructor
  · exact C3_volume_clamp.2.1 sqrtW (Sig.mono [1/100])
      (by norm_num [sqrtW, meanSq, flatten])
  · exact C3_volume_clamp.2.2.2 sqrtW 2 (by norm_num [sqrtW])

/-- Down-mixing with `target_channels = 1` always yields a 1-D signal. -/
theorem channelConvert_one (y : Sig) : ∃ s, channelConvert 1 y = Sig.mono s := by
  cases y with
  | mono s => exact ⟨s, by simp [channelConvert]⟩
  | multi chs => exact ⟨to_mono chs, by simp [channelConvert]⟩

/-- Volume normalization preserves 1-D signals. -/
theorem volumeNormalize_mono (sqrtQ : ℚ → ℚ) (s : List ℚ) :
    ∃ s2, volumeNormalize sqrtQ (Sig.mono s) = Sig.mono s2 := by
  simp only [volumeNormalize]
  split
  · exact ⟨_, rfl⟩
  · exact ⟨s, rfl⟩

/-- A clipped sample lies in `[-1, 1]`. -/
theorem clipSample_bounds (a : ℚ) : -1 ≤ clipSample a ∧ clipSample a ≤ 1 := by
  unfold clipSample
  constructor
  · exact le_min (le_max_right a (-1)) (by norm_num)
  · exact min_le_right _ 1

/-- With codec libraries present, a decodable input and
`target_channels = 1`, `normalize_audio` always succeeds and produces a
clipped 1-D signal at the requested target rate. -/
theorem normalize_one_channel (sqrtQ : ℚ → ℚ) (resample : List ℚ → ℕ → ℕ → List ℚ)
    (cfg : Config) (tsr : Option ℕ) (nv : Bool) (y0 : Sig) (sr0 : ℕ) :
    ∃ s : List ℚ,
      normalize_audio true sqrtQ resample cfg (Except.ok (y0, sr0)) tsr 1 nv =
        some { sig := Sig.mono (s.map clipSample), sr := tsr.getD cfg.AUDIO_SAMPLE_RATE } := by
  obtain ⟨s1, hs1⟩ := channelConvert_one y0
  by_cases hsr : sr0 ≠ tsr.getD cfg.AUDIO_SAMPLE_RATE
  · cases nv with
    | false =>
      refine ⟨resample s1 sr0 (tsr.getD cfg.AUDIO_SAMPLE_RATE), ?_⟩
      simp [normalize_audio, hs1, hsr, clipSig, mapSig, resampleSig]
    | true =>
      obtain ⟨s3, hs3⟩ :=
        volumeNormalize_mono sqrtQ (resample s1 sr0 (tsr.getD cfg.AUDIO_SAMPLE_RATE))
      refine ⟨s3, ?_⟩
      simp [normalize_audio, hs1, hsr, clipSig, mapSig, resampleSig, hs3]
  · rw [not_ne_iff] at hsr
    subst hsr
    cases nv with
    | false =>
      refine ⟨s1, ?_⟩
      simp [normalize_audio, hs1, clipSig, mapSig]
    | true =>
      obtain ⟨s3, hs3⟩ := volumeNormalize_mono sqrtQ s1
      refine ⟨s3, ?_⟩
      simp [normalize_audio, hs1, clipSig, mapSig, hs3]

/-- C4: every successful `normalize_audio` run with `target_channels = 1`
yields a 1-D (single-channel) signal at exactly the requested target rate
(defaulting to `AUDIO_SAMPLE_RATE`), with every output sample inside
`[-1, 1]` — the hard clip is applied on every successful run, whether or
not volume normalization was requested. -/
theorem C4_canonical_output (lib : Bool) (sqrtQ : ℚ → ℚ)
    (resample : List ℚ → ℕ → ℕ → List ℚ) (cfg : Config)
    (input : Except String (Sig × ℕ)) (tsr : Option ℕ) (nv : Bool) (r : NormResult)
    (h : normalize_audio lib sqrtQ resample cfg input tsr 1 nv = some r) :
    (∃ s, r.sig = Sig.mono s) ∧ numChannels r.sig = 1 ∧
    r.sr = tsr.getD cfg.AUDIO_SAMPLE_RATE ∧
    (∀ x ∈ flatten r.sig, -1 ≤ x ∧ x ≤ 1) := by
  cases lib with
  | false => exact absurd h (by simp [normalize_audio])
  | true =>
    cases input with
    | error e => exact absurd h (by simp [normalize_audio])
    | ok p =>
      obtain ⟨y0, sr0⟩ := p
      obtain ⟨s, hs⟩ := normalize_one_channel sqrtQ resample cfg tsr nv y0 sr0
      rw [hs] at h
      injection h with h
      subst h
      refine ⟨⟨_, rfl⟩, rfl, rfl, ?_⟩
      intro x hx
      simp only [flatten, List.mem_map] at hx
      obtain ⟨a, -, rfl⟩ := hx
      exact clipSample_bounds a

/-- Witness for C4: a concrete stereo 8 kHz input run through
`normalize_audio` with target rate 16000 and `target_channels = 1`. -/
theorem C4_canonical_output_witness :
    ∃ r : NormResult,
      normalize_audio true sqrtW (fun s _ _ => s) defaultConfig
          (Except.ok (Sig.multi [[2], [0]], 8000)) (some 16000) 1 true = some r ∧
      (∃ s, r.sig = Sig.mono s) ∧ numChannels r.sig = 1 ∧ r.sr = 16000 ∧
      (∀ x ∈ flatten r.sig, -1 ≤ x ∧ x ≤ 1) := by
  have hrun : normalize_audio true sqrtW (fun s _ _ => s) defaultConfig
      (Except.ok (Sig.multi [[2], [0]], 8000)) (some 16000) 1 true =
      some { sig := Sig.mono [1], sr := 16000 } := by
    norm_num [normalize_audio, channelConvert, to_mono, sampleAt, resampleSig,
      volumeNormalize, meanSq, flatten, sqrtW, clipSig, mapSig, clipSample,
      List.range_succ, List.range_zero, List.getD, Function.comp]
  have h := C4_canonical_output true sqrtW (fun s _ _ => s) defaultConfig
      (Except.ok (Sig.multi [[2], [0]], 8000)) (some 16000) true
      { sig := Sig.mono [1], sr := 16000 } hrun
  exact ⟨{ sig := Sig.mono [1], sr := 16000 }, hrun, h.1, h.2.1, h.2.2.1, h.2.2.2⟩

/-- Characters produced by `collapseAux` come from the input, except for
the space written in place of a whitespace run. -/
theorem mem_collapseAux : ∀ (b : Bool) (l : List Char) (x : Char),
    x ∈ collapseAux b l → x ∈ l ∨ x = ' '
  | _, [], x => by simp [collapseAux]
  | b, c :: cs, x => by
    simp only [collapseAux]
    split
    · split
      · intro h
        rcases mem_collapseAux true cs x h with h' | h'
        · exact Or.inl (List.mem_cons_of_mem c h')
        · exact Or.inr h'
      · intro h
        rcases List.mem_cons.mp h with h' | h'
        · exact Or.inr h'
        · rcases mem_collapseAux true cs x h' with h'' | h''
          · exact Or.inl (List.mem_cons_of_mem c h'')
          · exact Or.inr h''
    · intro h
      rcases List.mem_cons.mp h with h' | h'
      · exact Or.inl (h' ▸ List.mem_cons_self c cs)
      · rcases mem_collapseAux false cs x h' with h'' | h''
        · exact Or.inl (List.mem_cons_of_mem c h'')
        · exact Or.inr h''

/-- Stripping only removes characters. -/
theorem mem_pyStrip (l : List Char) (x : Char) (h : x ∈ pyStrip l) : x ∈ l := by
  unfold pyStrip at h
  rw [List.mem_reverse] at h
  have h2 := (List.dropWhile_sublist isPySpace).subset h
  rw [List.mem_reverse] at h2
  exact (List.dropWhile_sublist isPySpace).subset h2

/-- Every character of a preprocessed text is in the allowed class. -/
theorem allowed_mem_preprocessChars (l : List Char) (c : Char)
    (h : c ∈ preprocessChars l) : isAllowedChar c = true := by
  unfold preprocessChars at h
  rcases mem_collapseAux false _ c h with h' | h'
  · exact (List.mem_filter.mp (mem_pyStrip _ c h')).2
  · subst h'
    decide

/-- The head surviving a `dropWhile` does not satisfy the dropped
predicate. -/
theorem head?_dropWhile_false {α : Type} (p : α → Bool) (l : List α) (c : α)
    (h : (l.dropWhile p).head? = some c) : p c = false := by
  have h2 := List.head?_dropWhile_not p l
  rw [h] at h2
  exact h2

/-- `dropWhile` preserves the last element when its result is
nonempty. -/
theorem getLast?_dropWhile {α : Type} (p : α → Bool) : ∀ (l : List α) (c : α),
    (l.dropWhile p).getLast? = some c → l.getLast? = some c
  | [], c => by simp
  | a :: l, c => by
    rw [List.dropWhile_cons]
    split
    · intro h
      cases l with
      | nil => simp [List.dropWhile] at h
      | cons b bs =>
        rw [List.getLast?_cons_cons]
        exact getLast?_dropWhile p (b :: bs) c h
    · intro h
      exact h

/-- The last character of a stripped list is not whitespace. -/
theorem pyStrip_getLast? (l : List Char) (c : Char)
    (h : (pyStrip l).getLast? = some c) : isPySpace c = false := by
  unfold pyStrip at h
  rw [List.getLast?_reverse] at h
  exact head?_dropWhile_false isPySpace _ c h

/-- The first character of a stripped list is not whitespace. -/
theorem pyStrip_head? (l : List Char) (c : Char)
    (h : (pyStrip l).head? = some c) : isPySpace c = false := by
  unfold pyStrip at h
  rw [List.head?_reverse] at h
  have h2 := getLast?_dropWhile isPySpace _ c h
  rw [List.getLast?_reverse] at h2
  exact head?_dropWhile_false isPySpace l c h2

/-- Stripped lists have no trailing whitespace. -/
theorem pyStrip_noTrail (l : List Char) : noTrailSpace (pyStrip l) = true := by
  unfold noTrailSpace
  cases h : (pyStrip l).getLast? with
  | none => rfl
  | some c => simp [pyStrip_getLast? l c h]

/-- A one-character list with no trailing whitespace starts with a
non-whitespace character. -/
theorem noTrail_singleton (c : Char) (h : noTrailSpace [c] = true) :
    isPySpace c = false := by
  unfold noTrailSpace at h
  simpa using h

/-- `noTrailSpace` passes to the tail of a cons when the tail is
nonempty. -/
theorem noTrailSpace_cons (c : Char) (cs : List Char) (h : noTrailSpace (c :: cs) = true)
    (hcs : cs ≠ []) : noTrailSpace cs = true := by
  cases cs with
  | nil => exact absurd rfl hcs
  | cons d ds =>
    unfold noTrailSpace at h ⊢
    rw [List.getLast?_cons_cons] at h
    exact h

/-- After a replaced whitespace run, `collapseAux` resumes with a
non-whitespace character. -/
theorem collapseAux_true_head : ∀ l : List Char, l ≠ [] → noTrailSpace l = true →
    ∃ d ds, collapseAux true l = d :: ds ∧ isPySpace d = false
  | [], h, _ => absurd rfl h
  | c :: cs, _, ht => by
    by_cases hc : isPySpace c = true
    · have hcs : cs ≠ [] := by
        intro he
        subst he
        have h0 := noTrail_singleton c ht
        simp [hc] at h0
      obtain ⟨d, ds, hd, hds⟩ :=
        collapseAux_true_head cs hcs (noTrailSpace_cons c cs ht hcs)
      exact ⟨d, ds, by simp [collapseAux, hc, hd], hds⟩
    · exact ⟨c, collapseAux false cs, by simp [collapseAux, hc], by simpa using hc⟩

/-- Collapsing a list with no trailing whitespace establishes the
`canonAux` whitespace discipline. -/
theorem canonAux_collapseAux : ∀ (l : List Char) (b : Bool), noTrailSpace l = true →
    canonAux (collapseAux b l) = true
  | [], _, _ => by simp [collapseAux, canonAux]
  | c :: cs, b, ht => by
    by_cases hc : isPySpace c = true
    · have hcs : cs ≠ [] := by
        intro he
        subst he
        have h0 := noTrail_singleton c ht
        simp [hc] at h0
      have ht' := noTrailSpace_cons c cs ht hcs
      cases b with
      | true => simpa [collapseAux, hc] using canonAux_collapseAux cs true ht'
      | false =>
        obtain ⟨d, ds, hd, hds⟩ := collapseAux_true_head cs hcs ht'
        have hrec := canonAux_collapseAux cs true ht'
        rw [hd] at hrec
        have hout : collapseAux false (c :: cs) = ' ' :: d :: ds := by
          simp [collapseAux, hc, hd]
        rw [hout]
        have hsp : isPySpace ' ' = true := by decide
        simp [canonAux, hsp, hds, hrec]
    · have hout : collapseAux b (c :: cs) = c :: collapseAux false cs := by
        simp [collapseAux, hc]
      rw [hout]
      cases hx : collapseAux false cs with
      | nil => simpa [canonAux] using hc
      | cons d ds =>
        have hcs : cs ≠ [] := by
          intro he
          subst he
          simp [collapseAux] at hx
        have hrec := canonAux_collapseAux cs false (noTrailSpace_cons c cs ht hcs)
        rw [hx] at hrec
        simp [canonAux, hc, hrec]

/-- A canonical cons has a non-whitespace head and the whitespace
discipline. -/
theorem canonicalB_head (c : Char) (cs : List Char) (h : canonicalB (c :: cs) = true) :
    isPySpace c = false ∧ canonAux (c :: cs) = true := by
  unfold canonicalB at h
  obtain ⟨h1, h2⟩ := Bool.and_eq_true_iff.mp h
  exact ⟨by simpa using h1, h2⟩

/-- Preprocessed text is in canonical form: no leading or trailing
whitespace, no whitespace runs, every whitespace character a plain
space. -/
theorem canonicalB_preprocessChars (l : List Char) :
    canonicalB (preprocessChars l) = true := by
  unfold preprocessChars canonicalB
  cases hS : pyStrip (l.filter isAllowedChar) with
  | nil => simp [collapseAux]
  | cons c cs =>
    have hc : isPySpace c = false := pyStrip_head? _ c (by rw [hS]; rfl)
    have hnt : noTrailSpace (c :: cs) = true := by
      rw [← hS]
      exact pyStrip_noTrail _
    have hout : collapseAux false (c :: cs) = c :: collapseAux false cs := by
      simp [collapseAux, hc]
    have hca := canonAux_collapseAux (c :: cs) false hnt
    rw [hout] at hca ⊢
    simp [hc, hca]

/-- The whitespace discipline forbids a trailing whitespace
character. -/
theorem canonAux_getLast? : ∀ l : List Char, canonAux l = true →
    ∀ c, l.getLast? = some c → isPySpace c = false
  | [], _, c => by simp
  | [a], h, c => by
    intro hc
    have : a = c := by simpa using hc
    subst this
    simpa [canonAux] using h
  | a :: b :: rest, h, c => by
    intro hc
    rw [List.getLast?_cons_cons] at hc
    simp only [canonAux] at h
    exact canonAux_getLast? (b :: rest) (Bool.and_eq_true_iff.mp h).2 c hc

/-- `dropWhile` is the identity when the head does not satisfy the
predicate. -/
theorem dropWhile_eq_self_of_head {α : Type} (p : α → Bool) (l : List α)
    (h : ∀ c, l.head? = some c → p c = false) : l.dropWhile p = l := by
  cases l with
  | nil => rfl
  | cons a as => exact List.dropWhile_cons_of_neg (by simp [h a rfl])

/-- Stripping a canonical list changes nothing. -/
theorem strip_of_canonical (l : List Char) (h : canonicalB l = true) : pyStrip l = l := by
  unfold pyStrip
  have h1 : l.dropWhile isPySpace = l := by
    apply dropWhile_eq_self_of_head
    intro c hc
    cases l with
    | nil => simp at hc
    | cons a as =>
      have : a = c := by simpa using hc
      subst this
      exact (canonicalB_head a as h).1
  rw [h1]
  have h2 : l.reverse.dropWhile isPySpace = l.reverse := by
    apply dropWhile_eq_self_of_head
    intro c hc
    rw [List.head?_reverse] at hc
    cases l with
    | nil => simp at hc
    | cons a as => exact canonAux_getLast? (a :: as) (canonicalB_head a as h).2 c hc
  rw [h2, List.reverse_reverse]

/-- Collapsing a list that already satisfies the whitespace discipline
changes nothing. -/
theorem collapse_of_canonAux : ∀ l : List Char, canonAux l = true →
    collapseAux false l = l
  | [], _ => rfl
  | [c], h => by
    have hc : isPySpace c = false := by simpa [canonAux] using h
    simp [collapseAux, hc]
  | c :: d :: rest, h => by
    simp only [canonAux] at h
    obtain ⟨h1, h2⟩ := Bool.and_eq_true_iff.mp h
    have hrec := collapse_of_canonAux (d :: rest) h2
    by_cases hc : isPySpace c = true
    · rw [if_pos hc] at h1
      obtain ⟨hceq, hd⟩ := Bool.and_eq_true_iff.mp h1
      have hc' : c = ' ' := by simpa using hceq
      subst hc'
      have hd' : isPySpace d = false := by simpa using hd
      have hstep : collapseAux false (d :: rest) = d :: collapseAux false rest := by
        simp [collapseAux, hd']
      have hrest : collapseAux false rest = rest := by
        rw [hstep] at hrec
        injection hrec
      have hsp : isPySpace ' ' = true := by decide
      simp [collapseAux, hsp, hd', hrest]
    · have hc' : isPySpace c = false := by simpa using hc
      calc collapseAux false (c :: d :: rest)
          = c :: collapseAux false (d :: rest) := by simp [collapseAux, hc']
        _ = c :: d :: rest := by rw [hrec]

/-- Preprocessed text only contains allowed characters, so the filter
stage of a second run keeps everything. -/
theorem filter_preprocessChars (l : List Char) :
    (preprocessChars l).filter isAllowedChar = preprocessChars l :=
  List.filter_eq_self.mpr (fun c hc => allowed_mem_preprocessChars l c hc)

/-- `preprocessChars` is idempotent. -/
theorem preprocessChars_idem (l : List Char) :
    preprocessChars (preprocessChars l) = preprocessChars l := by
  have hcan := canonicalB_preprocessChars l
  have hs := strip_of_canonical _ hcan
  have hca : canonAux (preprocessChars l) = true := by
    cases hp : preprocessChars l with
    | nil => simp [canonAux]
    | cons c cs => exact (canonicalB_head c cs (hp ▸ hcan)).2
  calc preprocessChars (preprocessChars l)
      = collapseAux false (pyStrip ((preprocessChars l).filter isAllowedChar)) := rfl
    _ = collapseAux false (pyStrip (preprocessChars l)) := by rw [filter_preprocessChars]
    _ = collapseAux false (preprocessChars l) := by rw [hs]
    _ = preprocessChars l := collapse_of_canonAux _ hca

/-- C6: `preprocess_text` only keeps characters of the allowed class
{word characters, whitespace, `. , ! ? ; : -`}; its output is in
canonical whitespace form (whitespace runs collapsed to single spaces,
both ends trimmed); it is idempotent on every input string; and on
"Olá, mundo!!! @@@ 123" it returns exactly "Olá, mundo!!! 123". -/
theorem C6_preprocess_text :
    (∀ (l : List Char) (c : Char), c ∈ preprocessChars l → isAllowedChar c = true) ∧
    (∀ l : List Char, canonicalB (preprocessChars l) = true) ∧
    (∀ (text lang1 lang2 : String),
       preprocess_text (preprocess_text text lang1) lang2 = preprocess_text text lang1) ∧
    preprocess_text "Olá, mundo!!! @@@ 123" "pt" = "Olá, mundo!!! 123" := by
  refine ⟨allowed_mem_preprocessChars, canonicalB_preprocessChars, ?_, by decide⟩
  intro text lang1 lang2
  unfold preprocess_text
  rw [show (String.mk (preprocessChars text.toList)).toList = preprocessChars text.toList
        from rfl,
      preprocessChars_idem]

/-- Witness for C6: the allowed-character property applied at a concrete
preprocessed character, and idempotence at a concrete string with runs
of spaces. -/
theorem C6_preprocess_text_witness :
    isAllowedChar 'a' = true ∧
    preprocess_text (preprocess_text "  a   b  " "pt") "en" =
      preprocess_text "  a   b  " "pt" := by
  constructor
  · exact C6_preprocess_text.1 ("a@b".toList) 'a' (by decide)
  · exact C6_preprocess_text.2.2.1 "  a   b  " "pt" "en"

end TTS
